import Mathlib

/-!
# Verification of the toy VPN core (client pump and server forwarder)

Shallow embedding of the repository's two deployables:

* `src/server/src/main.rs` — IP pool (`IpPool`), client registry
  (`ClientManager`), and the UDP branch of the forwarder event loop
  (`handleUdp`).  IPv4 addresses and UDP endpoints are modelled as `Nat`
  (`u32` values carry an explicit `% 2^32` where Rust wrapping matters);
  `HashMap<u32, ()>` is modelled as a key list with set semantics
  (`insertKey` / `removeKey`); the two registry `HashMap`s are association
  lists queried with `lookupA`.

* `src/client/rust/src/client.rs` + `src/client/rust/src/lib.rs` — the
  uplink / downlink task loops (`txRun` / `rxRun`) driven by explicit event
  traces, the supervisor (`runVpn`), the `on_stop` wiring of
  `ToyVpnClient::start` (`onStopCalls`, `clientStart`), and the
  `tokio::sync::Notify` stop handle (`NotifyState`, `notifyOne`,
  `notifyWaiters`).
-/

namespace ToyVpn

/-- Modulus of Rust `u32` arithmetic, `2^32`. -/
def U32 : Nat := 4294967296

/-! Server: IP pool (`src/server/src/main.rs`, `IpPool`) -/

/-- Model of `HashMap<u32, ()>::insert` on the key set. -/
def insertKey (l : List Nat) (k : Nat) : List Nat :=
  if k ∈ l then l else k :: l

/-- Model of `HashMap<u32, ()>::remove` on the key set: drop the key `k`. -/
def removeKey (l : List Nat) (k : Nat) : List Nat :=
  l.filter (fun x => x ≠ k)

/-- State of `IpPool`: network address, mask, server IP, and the set of
allocated (reserved) addresses, all `u32`. -/
structure IpPool where
  network : Nat
  mask : Nat
  server_ip : Nat
  allocated : List Nat
  deriving Repr, DecidableEq

namespace IpPool

/-- Constructor `IpPool::new(ip, mask)`: derive `network = ip & mask` and reserve the
server IP, the network address and the broadcast address
`network | !mask` (lines 33–50 of `main.rs`). -/
def new (ip mask : Nat) : IpPool :=
  let network := ip &&& mask
  let a0 : List Nat := []
  let a1 := insertKey a0 ip
  let a2 := insertKey a1 network
  let a3 := insertKey a2 (network ||| ((U32 - 1) - mask))
  { network := network, mask := mask, server_ip := ip, allocated := a3 }

/-- The scan loop body of `IpPool::allocate`: try candidates
`(network + i) % 2^32`, `(network + i + 1) % 2^32`, … for `remaining`
iterations, returning the first candidate not in `alloc`. -/
def scanFrom (alloc : List Nat) (network i remaining : Nat) : Option Nat :=
  match remaining with
  | 0 => none
  | r + 1 =>
      if (network + i) % U32 ∈ alloc then scanFrom alloc network (i + 1) r
      else some ((network + i) % U32)

/-- Allocator `IpPool::allocate` (lines 52–63): `range_size = (!mask) + 1` with `u32`
wrapping, scan `i` over `1..range_size`, insert and return the first free
candidate, `None` when the scan is exhausted. -/
def allocate (p : IpPool) : Option Nat × IpPool :=
  match scanFrom p.allocated p.network 1 (((((U32 - 1) - p.mask) + 1) % U32) - 1) with
  | some c => (some c, { p with allocated := insertKey p.allocated c })
  | none => (none, p)

/-- Release `IpPool::release(ip)` (lines 66–71): remove `ip` from the allocated set
unless it is the server IP. -/
def release (p : IpPool) (ip : Nat) : IpPool :=
  if ip ≠ p.server_ip then { p with allocated := removeKey p.allocated ip } else p

/-- The value of Rust `!mask` for a `u32` mask: `2^32 - 1 - mask`. -/
def invMask (p : IpPool) : Nat := (U32 - 1) - p.mask

/-- The broadcast address of the pool's subnet, `network | !mask` — the value
reserved by `IpPool::new`. -/
def broadcast (p : IpPool) : Nat := p.network ||| p.invMask

/-- Well-formedness of a pool state: the network address is covered by the
mask (true of `ip & mask`), and the mask is a nonzero `u32`. -/
def WF (p : IpPool) : Prop := p.network ≤ p.mask ∧ 0 < p.mask ∧ p.mask < U32

instance (p : IpPool) : Decidable p.WF := by unfold WF; infer_instance

end IpPool

/-- A pool operation: one `allocate()` call or one `release(ip)` call. -/
inductive PoolOp
  | alloc
  | rel (ip : Nat)
  deriving Repr, DecidableEq

/-- Run a sequence of pool operations, collecting every address that an
`allocate()` call returned. -/
def runOps : List PoolOp → IpPool → IpPool × List Nat
  | [], p => (p, [])
  | PoolOp.alloc :: ops, p =>
      match p.allocate with
      | (some c, p') => let r := runOps ops p'; (r.1, c :: r.2)
      | (none, p') => runOps ops p'
  | PoolOp.rel ip :: ops, p => runOps ops (p.release ip)

/-! Server: client registry (`ClientManager`) -/

/-- Association-list lookup, the model of `HashMap::get`. -/
def lookupA (l : List (Nat × Nat)) (k : Nat) : Option Nat :=
  (l.find? (fun q => q.1 = k)).map (fun q => q.2)

/-- Registry `ClientManager`: the two mirror maps `tunnel_ip → endpoint` and
`endpoint → tunnel_ip`, plus the pool. -/
structure ClientManager where
  by_ip : List (Nat × Nat)
  by_addr : List (Nat × Nat)
  pool : IpPool
  deriving Repr, DecidableEq

namespace ClientManager

/-- Constructor `ClientManager::new(pool)` (lines 81–87). -/
def new (pool : IpPool) : ClientManager :=
  { by_ip := [], by_addr := [], pool := pool }

/-- Registration `ClientManager::register(addr)` (lines 89–101): return the existing IP
when the endpoint is known; otherwise allocate, insert both directions. -/
def register (m : ClientManager) (addr : Nat) : Option Nat × ClientManager :=
  match lookupA m.by_addr addr with
  | some ip => (some ip, m)
  | none =>
      match m.pool.allocate with
      | (some ip, pool') =>
          (some ip,
            { by_ip := (ip, addr) :: m.by_ip,
              by_addr := (addr, ip) :: m.by_addr,
              pool := pool' })
      | (none, _) => (none, m)

/-- Lookup `ClientManager::get_addr(ip)` (lines 103–105). -/
def get_addr (m : ClientManager) (ip : Nat) : Option Nat :=
  lookupA m.by_ip ip

/-- Lookup `ClientManager::get_ip(addr)` (lines 107–109). -/
def get_ip (m : ClientManager) (addr : Nat) : Option Nat :=
  lookupA m.by_addr addr

end ClientManager

/-! Server: the UDP branch of the forwarder loop (`main.rs` lines 157–201) -/

/-- The big-endian octets of a `u32` IPv4 address (`Ipv4Addr::octets`). -/
def octets (ip : Nat) : List Nat :=
  [ip / 16777216 % 256, ip / 65536 % 256, ip / 256 % 256, ip % 256]

/-- The handshake response built at lines 168–177:
`[0x00, 0x02] ++ ip.octets() ++ [route_count = 1] ++ route 0.0.0.0/0`. -/
def handshakeResponse (ip : Nat) : List Nat :=
  0 :: 2 :: octets ip ++ 1 :: ([0, 0, 0, 0] ++ [0, 0, 0, 0])

/-- Handshake classifier `n >= 2 && packet[0] == 0x00 && packet[1] == 0x01`. -/
def isHandshake : List Nat → Bool
  | 0 :: 1 :: _ => true
  | _ => false

/-- Data classifier `n > 0 && packet[0] == 0x45`. -/
def isData : List Nat → Bool
  | b :: _ => b == 69
  | [] => false

/-- Observable effect of one iteration of the UDP branch: the datagram (if
any) sent back to the source endpoint, and the bytes (if any) written to
the TUN device. -/
structure UdpEffect where
  sent : Option (List Nat)
  tunWrite : Option (List Nat)
  deriving Repr, DecidableEq

/-- One iteration of the UDP → TUN branch of the forwarder (lines 159–198):
handshake datagrams go to `register` and get the 15-byte response (nothing
on allocation failure); datagrams whose first byte is `0x45` are written
verbatim to TUN when the source is registered; everything else is dropped. -/
def handleUdp (m : ClientManager) (pkt : List Nat) (src : Nat) :
    ClientManager × UdpEffect :=
  if isHandshake pkt then
    match m.register src with
    | (some ip, m') => (m', { sent := some (handshakeResponse ip), tunWrite := none })
    | (none, m') => (m', { sent := none, tunWrite := none })
  else if isData pkt then
    if (m.get_ip src).isSome then
      (m, { sent := none, tunWrite := some pkt })
    else
      (m, { sent := none, tunWrite := none })
  else
    (m, { sent := none, tunWrite := none })

/-! Client: uplink task (`src/client/rust/src/client.rs` lines 49–85)

The task loops are driven by explicit event traces: each event is the
outcome of one `tokio::select!` iteration.  An exhausted trace leaves the
loop still waiting (`pending`). -/

/-- Outcome of `guard.try_io(|inner| inner.get_ref().read(&mut buf))`. -/
inductive ReadRes
  | wouldBlock
  | ok (n : Nat)
  | err (e : String)
  deriving Repr, DecidableEq

/-- Outcome of `udp_sender.send(&buf[..n])`. -/
inductive SendRes
  | ok
  | err (e : String)
  deriving Repr, DecidableEq

/-- One `tokio::select!` iteration of the uplink loop: the stop branch, a
failed `readable()` guard, or a read attempt (whose `SendRes` is consumed
only when the read returns `n > 0` bytes). -/
inductive TxEvt
  | stop
  | readableErr (e : String)
  | read (r : ReadRes) (s : SendRes)
  deriving Repr, DecidableEq

/-- How the uplink loop ended. -/
inductive TxExit
  | stopped
  | eof
  | readErr (e : String)
  | readableErr (e : String)
  | pending
  deriving Repr, DecidableEq

/-- The uplink loop (lines 52–83): stop breaks; `WouldBlock` retries; a read
of 0 bytes breaks (EOF); a read of `n > 0` bytes adds `n` to the `tx`
counter and then sends — a send error is only logged, the loop continues
either way; a read error breaks. Returns the exit kind and the final `tx`. -/
def txRun : List TxEvt → Nat → TxExit × Nat
  | [], tx => (TxExit.pending, tx)
  | TxEvt.stop :: _, tx => (TxExit.stopped, tx)
  | TxEvt.readableErr e :: _, tx => (TxExit.readableErr e, tx)
  | TxEvt.read ReadRes.wouldBlock _ :: rest, tx => txRun rest tx
  | TxEvt.read (ReadRes.ok 0) _ :: _, tx => (TxExit.eof, tx)
  | TxEvt.read (ReadRes.ok (n + 1)) _ :: rest, tx => txRun rest (tx + (n + 1))
  | TxEvt.read (ReadRes.err e) _ :: _, tx => (TxExit.readErr e, tx)

/-! Client: downlink task (`client.rs` lines 93–133) -/

/-- Outcome of `guard.try_io(|inner| inner.get_ref().write(&buf[..n]))`. -/
inductive TryWriteRes
  | ok
  | wouldBlock
  | err (e : String)
  deriving Repr, DecidableEq

/-- One iteration of the inner TUN-write loop: either `writable()` fails, or
a write attempt runs. -/
inductive WriteEvt
  | writableErr (e : String)
  | tryWrite (r : TryWriteRes)
  deriving Repr, DecidableEq

/-- Result of the inner write loop (lines 105–122). -/
inductive InnerOut
  | done
  | fail (e : String)
  | pending
  deriving Repr, DecidableEq

/-- The inner TUN-write loop: `WouldBlock` retries, a successful write
breaks, a `writable()` error or write error returns from the task. -/
def innerWrite : List WriteEvt → InnerOut
  | [] => InnerOut.pending
  | WriteEvt.writableErr e :: _ => InnerOut.fail e
  | WriteEvt.tryWrite TryWriteRes.ok :: _ => InnerOut.done
  | WriteEvt.tryWrite (TryWriteRes.err e) :: _ => InnerOut.fail e
  | WriteEvt.tryWrite TryWriteRes.wouldBlock :: rest => innerWrite rest

/-- One `tokio::select!` iteration of the downlink loop: the stop branch, or
the outcome of `udp_receiver.recv(&mut buf)` (with the write events the
inner loop consumes on success). -/
inductive RxEvt
  | stop
  | recvOk (n : Nat) (ws : List WriteEvt)
  | recvErr (e : String)
  deriving Repr, DecidableEq

/-- How the downlink loop ended. -/
inductive RxExit
  | stopped
  | recvErr (e : String)
  | writeFail (e : String)
  | pending
  deriving Repr, DecidableEq

/-- The downlink loop (lines 96–131): stop breaks; a successful receive of
`n` bytes adds `n` to the `rx` counter and runs the inner write loop (whose
failure ends the task); a receive error breaks the loop — it is terminal.
Returns the exit kind and the final `rx`. -/
def rxRun : List RxEvt → Nat → RxExit × Nat
  | [], rx => (RxExit.pending, rx)
  | RxEvt.stop :: _, rx => (RxExit.stopped, rx)
  | RxEvt.recvErr e :: _, rx => (RxExit.recvErr e, rx)
  | RxEvt.recvOk n ws :: rest, rx =>
      match innerWrite ws with
      | InnerOut.done => rxRun rest (rx + n)
      | InnerOut.fail e => (RxExit.writeFail e, rx + n)
      | InnerOut.pending => (RxExit.pending, rx + n)

/-! Client: supervisor `run_vpn` (`client.rs` lines 13–178) and the
`on_stop` wiring of `ToyVpnClient::start` (`lib.rs` lines 144–174) -/

/-- Observable outcome of one `run_vpn` call: its `anyhow::Result`, the exit
kinds of the two pump tasks (`none` when setup failed before spawning), and
whether the teardown broadcast `stop_signal.notify_waiters()` ran. -/
structure RunOutcome where
  result : Except String Unit
  txExit : Option TxExit
  rxExit : Option RxExit
  broadcastTeardown : Bool
  deriving Repr

/-- Supervisor `run_vpn` (lines 13–178): the `?`-chain of setup steps (fd flags,
`AsyncFd::new`, socket conversion) may fail first, with no task spawned —
`setupErr` is the first such error.  Otherwise the three tasks are spawned,
the supervisor races the stop signal against the task completions (lines
158–171), calls `stop_signal.notify_waiters()` (line 174) and returns
`Ok(())` — whatever made the first task exit. -/
def runVpn (setupErr : Option String) (txE : List TxEvt) (rxE : List RxEvt) :
    RunOutcome :=
  match setupErr with
  | some e =>
      { result := Except.error e, txExit := none, rxExit := none,
        broadcastTeardown := false }
  | none =>
      { result := Except.ok (),
        txExit := some (txRun txE 0).1,
        rxExit := some (rxRun rxE 0).1,
        broadcastTeardown := true }

/-- The `on_stop` calls made by the thread that `ToyVpnClient::start` spawns
(`lib.rs` lines 159–171): exactly one call, with the error's text when
`run_vpn` returned `Err`, with `"Stopped"` when it returned `Ok`. -/
def onStopCalls (setupErr : Option String) (txE : List TxEvt) (rxE : List RxEvt) :
    List String :=
  match (runVpn setupErr txE rxE).result with
  | Except.error e => [e]
  | Except.ok _ => ["Stopped"]

/-- The error message of `VpnError::StartFailed` raised when no connection
is stored (`lib.rs` line 155). -/
def startErrMsg : String := "VPN connection not established. Call handshake() first."

/-- Synchronous outcome of `ToyVpnClient::start` (`lib.rs` lines 144–174):
its `Result` (an error carries the `StartFailed` text), the connection slot
after the call (`take()` leaves `None` in both branches), and whether the
pump thread was spawned (the spawned closure is the only place any
`VpnCallback` method is invoked). -/
structure StartOutcome (α : Type) where
  result : Except String Unit
  stored : Option α
  threadSpawned : Bool
  deriving Repr

/-- Model of `ToyVpnClient::start`: `self.connection.lock().unwrap().take()` — on
`None`, return `Err(StartFailed(startErrMsg))` at once; on `Some`, spawn
the pump thread on the consumed connection and return `Ok(())`. -/
def clientStart {α : Type} (conn : Option α) : StartOutcome α :=
  match conn with
  | none =>
      { result := Except.error startErrMsg, stored := none, threadSpawned := false }
  | some _ =>
      { result := Except.ok (), stored := none, threadSpawned := true }

/-! Client: the stop handle (`tokio::sync::Notify`)

`ToyVpnClient::stop` (`lib.rs` lines 176–179) calls
`self.stop_signal.notify_one()`; `run_vpn` line 174 calls
`notify_waiters()`.  The `Notify` model: a stored permit (at most one) and
the ordered list of currently waiting tasks. -/

/-- State of a `tokio::sync::Notify`: whether a permit is stored, and the
tasks currently parked in `notified()` in registration order. -/
structure NotifyState (α : Type) where
  permit : Bool
  waiters : List α
  deriving Repr, DecidableEq

/-- Model of `Notify::notify_one`: wake the first waiter if any; otherwise store a
single permit (a second permit is never accumulated).  Returns the new
state and the list of woken tasks. -/
def notifyOne {α : Type} : NotifyState α → NotifyState α × List α
  | { permit := _, waiters := [] } => ({ permit := true, waiters := [] }, [])
  | { permit := p, waiters := w :: ws } => ({ permit := p, waiters := ws }, [w])

/-- Model of `Notify::notify_waiters`: wake every currently waiting task; no permit
is stored. -/
def notifyWaiters {α : Type} (s : NotifyState α) : NotifyState α × List α :=
  ({ permit := s.permit, waiters := [] }, s.waiters)

/-- Model of `ToyVpnClient::stop` (`lib.rs` lines 176–179): exactly
`notify_one` on the stop handle. -/
def clientStop {α : Type} (s : NotifyState α) : NotifyState α × List α :=
  notifyOne s

/-- The four session tasks of the client pump. -/
inductive TaskId
  | tx
  | rx
  | stats
  | sup
  deriving Repr, DecidableEq

/-- The teardown that a `stop()` call triggers, starting from the tasks
parked on the stop handle (in registration order): `stop()` performs
`notify_one`, whose single woken task exits its loop; the supervisor —
woken either directly or by that task's completion through its
`tokio::select!` (lines 158–171) — then performs `notify_waiters`
(line 174), whose woken tasks all exit; the supervisor returns.  The result
lists every task that has exited. -/
def teardownExited (w0 : List TaskId) : List TaskId :=
  let s0 : NotifyState TaskId := { permit := false, waiters := w0 }
  let r1 := notifyOne s0
  let r2 := notifyWaiters r1.1
  TaskId.sup :: r1.2 ++ r2.2

/-! Helper lemmas -/

/-- Membership in the key-set insert. -/
theorem mem_insertKey {l : List Nat} {k a : Nat} :
    a ∈ insertKey l k ↔ (a = k ∨ a ∈ l) := by
  by_cases h : k ∈ l
  · rw [insertKey, if_pos h]
    constructor
    · exact Or.inr
    · rintro (rfl | ha)
      · exact h
      · exact ha
  · rw [insertKey, if_neg h]
    exact List.mem_cons

/-- Membership in the key-set remove. -/
theorem mem_removeKey {l : List Nat} {k a : Nat} :
    a ∈ removeKey l k ↔ (a ∈ l ∧ a ≠ k) := by
  simp [removeKey, List.mem_filter]

/-- A one-byte datagram is never classified as a handshake. -/
theorem isHandshake_singleton (b : Nat) : isHandshake [b] = false := by
  cases b <;> rfl

/-- Characterization of a successful scan: the result is the first
candidate of the scan window that is not in `alloc`. -/
theorem scanFrom_some_char (alloc : List Nat) (net : Nat) :
    ∀ (r i c : Nat), IpPool.scanFrom alloc net i r = some c →
      ∃ k, k < r ∧ c = (net + (i + k)) % U32 ∧ c ∉ alloc ∧
        ∀ j, j < k → (net + (i + j)) % U32 ∈ alloc := by
  intro r
  induction r with
  | zero =>
      intro i c h
      simp [IpPool.scanFrom] at h
  | succ r ih =>
      intro i c h
      unfold IpPool.scanFrom at h
      by_cases hm : (net + i) % U32 ∈ alloc
      · rw [if_pos hm] at h
        obtain ⟨k, hk, hc, hcn, hall⟩ := ih (i + 1) c h
        refine ⟨k + 1, by omega, ?_, hcn, ?_⟩
        · rw [hc]
          congr 1
          omega
        · intro j hj
          cases j with
          | zero =>
              simpa using hm
          | succ j' =>
              have := hall j' (by omega)
              have e : net + (i + (j' + 1)) = net + (i + 1 + j') := by omega
              rw [e]
              exact this
      · rw [if_neg hm] at h
        injection h with h'
        refine ⟨0, by omega, ?_, ?_, ?_⟩
        · rw [← h']
          simp
        · rw [← h']
          exact hm
        · intro j hj
          exact absurd hj (Nat.not_lt_zero j)

/-- The scan fails exactly when every candidate of the window is in
`alloc`. -/
theorem scanFrom_none_iff (alloc : List Nat) (net : Nat) :
    ∀ (r i : Nat), IpPool.scanFrom alloc net i r = none ↔
      ∀ k, k < r → (net + (i + k)) % U32 ∈ alloc := by
  intro r
  induction r with
  | zero =>
      intro i
      constructor
      · intro _ k hk
        exact absurd hk (Nat.not_lt_zero k)
      · intro _
        rfl
  | succ r ih =>
      intro i
      unfold IpPool.scanFrom
      by_cases hm : (net + i) % U32 ∈ alloc
      · rw [if_pos hm, ih (i + 1)]
        constructor
        · intro h k hk
          cases k with
          | zero => simpa using hm
          | succ k' =>
              have e : net + (i + (k' + 1)) = net + (i + 1 + k') := by omega
              rw [e]
              exact h k' (by omega)
        · intro h k hk
          have e : net + (i + 1 + k) = net + (i + (k + 1)) := by omega
          rw [e]
          exact h (k + 1) (by omega)
      · rw [if_neg hm]
        constructor
        · intro h
          exact absurd h (by simp)
        · intro h
          have h0 : (net + i) % U32 ∈ alloc := by simpa using h 0 (Nat.succ_pos r)
          exact absurd h0 hm

/-- For a nonzero `u32` mask, the loop bound `range_size - 1` of
`IpPool::allocate` is exactly `!mask`. -/
theorem allocate_fuel_eq (p : IpPool) (h1 : 0 < p.mask) (h2 : p.mask < U32) :
    ((((U32 - 1) - p.mask) + 1) % U32) - 1 = p.invMask := by
  have hl : ((U32 - 1) - p.mask) + 1 < U32 := by
    unfold U32 at h2 ⊢
    omega
  rw [Nat.mod_eq_of_lt hl]
  unfold IpPool.invMask
  omega

/-- Scan candidates of a well-formed pool never overflow `u32`. -/
theorem cand_lt_U32 (p : IpPool) (hw : p.WF) {i : Nat} (hi : i ≤ p.invMask) :
    p.network + i < U32 := by
  obtain ⟨h0, h1, h2⟩ := hw
  unfold IpPool.invMask at hi
  omega

/-- The wrapping `% 2^32` on scan candidates of a well-formed pool is the
identity. -/
theorem cand_mod_eq (p : IpPool) (hw : p.WF) {i : Nat} (hi : i ≤ p.invMask) :
    (p.network + i) % U32 = p.network + i :=
  Nat.mod_eq_of_lt (cand_lt_U32 p hw hi)

/-- Characterization of a successful `allocate` on a well-formed pool:
first-fit over `network + 1 ..= network + !mask`, marking the result. -/
theorem allocate_some_char (p : IpPool) (hw : p.WF) (c : Nat) (q : IpPool)
    (hq : p.allocate = (some c, q)) :
    c ∉ p.allocated ∧
    q = { p with allocated := insertKey p.allocated c } ∧
    ∃ i, 1 ≤ i ∧ i ≤ p.invMask ∧ c = p.network + i ∧
      ∀ j, 1 ≤ j → j < i → p.network + j ∈ p.allocated := by
  obtain ⟨h0, h1, h2⟩ := hw
  unfold IpPool.allocate at hq
  rw [allocate_fuel_eq p h1 h2] at hq
  cases hs : IpPool.scanFrom p.allocated p.network 1 p.invMask with
  | none =>
      rw [hs] at hq
      exact absurd hq (by simp)
  | some c' =>
      rw [hs] at hq
      have hc : c' = c := by
        have := congrArg Prod.fst hq
        simpa using this
      subst hc
      have hq2 : q = { p with allocated := insertKey p.allocated c' } := by
        have := congrArg Prod.snd hq
        simpa using this.symm
      obtain ⟨k, hk, hck, hcn, hall⟩ :=
        scanFrom_some_char p.allocated p.network p.invMask 1 c' hs
      have hik : 1 + k ≤ p.invMask := by omega
      rw [cand_mod_eq p ⟨h0, h1, h2⟩ hik] at hck
      refine ⟨hcn, hq2, 1 + k, by omega, hik, hck, ?_⟩
      intro j hj1 hj2
      have := hall (j - 1) (by omega)
      have hj_le : 1 + (j - 1) ≤ p.invMask := by omega
      rw [cand_mod_eq p ⟨h0, h1, h2⟩ hj_le] at this
      have e : p.network + (1 + (j - 1)) = p.network + j := by omega
      rw [e] at this
      exact this

/-- On a well-formed pool, `allocate` returns `None` exactly when every
candidate `network + 1 ..= network + !mask` is already reserved. -/
theorem allocate_none_iff (p : IpPool) (hw : p.WF) :
    (p.allocate).1 = none ↔
      ∀ i, 1 ≤ i → i ≤ p.invMask → p.network + i ∈ p.allocated := by
  obtain ⟨h0, h1, h2⟩ := hw
  unfold IpPool.allocate
  rw [allocate_fuel_eq p h1 h2]
  cases hs : IpPool.scanFrom p.allocated p.network 1 p.invMask with
  | none =>
      constructor
      · intro _ i hi1 hi2
        have := (scanFrom_none_iff p.allocated p.network p.invMask 1).mp hs
              (i - 1) (by omega)
        rw [cand_mod_eq p ⟨h0, h1, h2⟩ (show 1 + (i - 1) ≤ p.invMask by omega)] at this
        have e : p.network + (1 + (i - 1)) = p.network + i := by omega
        rw [e] at this
        exact this
      · intro _
        rfl
  | some c' =>
      constructor
      · intro hfalse
        exact absurd hfalse (by simp)
      · intro hall
        obtain ⟨k, hk, hck, hcn, _⟩ :=
          scanFrom_some_char p.allocated p.network p.invMask 1 c' hs
        have hik : 1 + k ≤ p.invMask := by omega
        rw [cand_mod_eq p ⟨h0, h1, h2⟩ hik] at hck
        have hmem : c' ∈ p.allocated := by
          rw [hck]
          exact hall (1 + k) (by omega) hik
        exact absurd hmem hcn

/-- When the scan fails, `allocate` leaves the pool unchanged. -/
theorem allocate_none_snd (p : IpPool) (h : (p.allocate).1 = none) :
    (p.allocate).2 = p := by
  unfold IpPool.allocate at h ⊢
  cases hs : IpPool.scanFrom p.allocated p.network 1
      (((((U32 - 1) - p.mask) + 1) % U32) - 1) with
  | none =>
      rfl
  | some c =>
      rw [hs] at h
      exact absurd h (by simp)

/-- Release preserves every field but the allocated set. -/
theorem release_fields (p : IpPool) (x : Nat) :
    (p.release x).network = p.network ∧ (p.release x).mask = p.mask ∧
    (p.release x).server_ip = p.server_ip ∧ (p.release x).broadcast = p.broadcast := by
  unfold IpPool.release
  split <;> exact ⟨rfl, rfl, rfl, rfl⟩

/-- Release preserves well-formedness. -/
theorem release_WF (p : IpPool) (x : Nat) (hw : p.WF) : (p.release x).WF := by
  unfold IpPool.release
  split
  · exact hw
  · exact hw

/-- Release never removes the server IP. -/
theorem release_server_mem (p : IpPool) (x : Nat)
    (hs : p.server_ip ∈ p.allocated) : p.server_ip ∈ (p.release x).allocated := by
  unfold IpPool.release
  split
  · rename_i hx
    exact mem_removeKey.mpr ⟨hs, fun e => hx e.symm⟩
  · exact hs

/-- Release keeps any reserved address other than the released one. -/
theorem release_mem_keep (p : IpPool) (x a : Nat) (ha : a ∈ p.allocated)
    (hax : a ≠ x) : a ∈ (p.release x).allocated := by
  unfold IpPool.release
  split
  · exact mem_removeKey.mpr ⟨ha, hax⟩
  · exact ha

/-- A pool on which `allocate` is a no-op stays a no-op along any all-
`alloc` operation sequence. -/
theorem runOps_allocs_none (p : IpPool) (hp : p.allocate = (none, p)) :
    ∀ ops : List PoolOp, (∀ o ∈ ops, o = PoolOp.alloc) → (runOps ops p).2 = [] := by
  intro ops
  induction ops with
  | nil =>
      intro _
      rfl
  | cons o rest ih =>
      intro hall
      have ho : o = PoolOp.alloc := hall o (List.mem_cons_self o rest)
      subst ho
      have hred : runOps (PoolOp.alloc :: rest) p = runOps rest p := by
        simp only [runOps, hp]
      rw [hred]
      exact ih (fun o ho => hall o (List.mem_cons_of_mem _ ho))

/-- Addresses returned by `allocate` along ANY operation sequence — the
broadcast address may be released — avoid the network address and the
server IP: the scan starts at `network + 1` and `release` never removes the
server IP. -/
theorem runOps_no_net_server :
    ∀ (ops : List PoolOp) (p : IpPool), p.WF →
      p.server_ip ∈ p.allocated →
      ∀ a ∈ (runOps ops p).2, a ≠ p.network ∧ a ≠ p.server_ip := by
  intro ops
  induction ops with
  | nil =>
      intro p _ _ a ha
      exact absurd ha (by simp [runOps])
  | cons o rest ih =>
      intro p hw hs a ha
      cases o with
      | alloc =>
          rcases hA : p.allocate with ⟨oc, p'⟩
          cases oc with
          | some c =>
              have hred : (runOps (PoolOp.alloc :: rest) p).2
                  = c :: (runOps rest p').2 := by
                simp only [runOps, hA]
              rw [hred] at ha
              obtain ⟨hcn, hq, i, hi1, hi2, hci, _⟩ := allocate_some_char p hw c p' hA
              rcases List.mem_cons.mp ha with rfl | ha'
              · refine ⟨by omega, ?_⟩
                intro e
                exact hcn (by rw [e]; exact hs)
              · subst hq
                exact ih { p with allocated := insertKey p.allocated c } hw
                  (mem_insertKey.mpr (Or.inr hs)) a ha'
          | none =>
              have h1 : (p.allocate).1 = none := by rw [hA]
              have h2 : (p.allocate).2 = p' := by rw [hA]
              have hp' : p' = p := by rw [← h2, allocate_none_snd p h1]
              rw [hp'] at hA
              have hred : (runOps (PoolOp.alloc :: rest) p).2
                  = (runOps rest p).2 := by
                simp only [runOps, hA]
              rw [hred] at ha
              exact ih p hw hs a ha
      | rel x =>
          have hred : (runOps (PoolOp.rel x :: rest) p).2
              = (runOps rest (p.release x)).2 := rfl
          rw [hred] at ha
          have hs' : (p.release x).server_ip ∈ (p.release x).allocated := by
            rw [(release_fields p x).2.2.1]
            exact release_server_mem p x hs
          have hcon := ih (p.release x) (release_WF p x hw) hs' a ha
          rw [(release_fields p x).1, (release_fields p x).2.2.1] at hcon
          exact hcon

/-- Addresses returned by `allocate` along any operation sequence that
never releases the broadcast address avoid the network address, the server
IP, and the broadcast address. -/
theorem runOps_no_reserved :
    ∀ (ops : List PoolOp) (p : IpPool), p.WF →
      p.server_ip ∈ p.allocated → p.broadcast ∈ p.allocated →
      PoolOp.rel p.broadcast ∉ ops →
      ∀ a ∈ (runOps ops p).2,
        a ≠ p.network ∧ a ≠ p.server_ip ∧ a ≠ p.broadcast := by
  intro ops
  induction ops with
  | nil =>
      intro p _ _ _ _ a ha
      exact absurd ha (by simp [runOps])
  | cons o rest ih =>
      intro p hw hs hb hnr a ha
      cases o with
      | alloc =>
          rcases hA : p.allocate with ⟨oc, p'⟩
          cases oc with
          | some c =>
              have hred : (runOps (PoolOp.alloc :: rest) p).2
                  = c :: (runOps rest p').2 := by
                simp only [runOps, hA]
              rw [hred] at ha
              obtain ⟨hcn, hq, i, hi1, hi2, hci, _⟩ := allocate_some_char p hw c p' hA
              rcases List.mem_cons.mp ha with rfl | ha'
              · refine ⟨by omega, ?_, ?_⟩
                · intro e
                  exact hcn (by rw [e]; exact hs)
                · intro e
                  exact hcn (by rw [e]; exact hb)
              · subst hq
                exact ih { p with allocated := insertKey p.allocated c } hw
                  (mem_insertKey.mpr (Or.inr hs)) (mem_insertKey.mpr (Or.inr hb))
                  (fun hm => hnr (List.mem_cons_of_mem _ hm)) a ha'
          | none =>
              have h1 : (p.allocate).1 = none := by rw [hA]
              have h2 : (p.allocate).2 = p' := by rw [hA]
              have hp' : p' = p := by rw [← h2, allocate_none_snd p h1]
              rw [hp'] at hA
              have hred : (runOps (PoolOp.alloc :: rest) p).2
                  = (runOps rest p).2 := by
                simp only [runOps, hA]
              rw [hred] at ha
              exact ih p hw hs hb (fun hm => hnr (List.mem_cons_of_mem _ hm)) a ha
      | rel x =>
          have hx : x ≠ p.broadcast := by
            intro e
            exact hnr (by rw [e]; exact List.mem_cons_self _ _)
          have hred : (runOps (PoolOp.rel x :: rest) p).2
              = (runOps rest (p.release x)).2 := rfl
          rw [hred] at ha
          have hb' : (p.release x).broadcast ∈ (p.release x).allocated := by
            rw [(release_fields p x).2.2.2]
            exact release_mem_keep p x p.broadcast hb (fun e => hx e.symm)
          have hnr' : PoolOp.rel (p.release x).broadcast ∉ rest := by
            rw [(release_fields p x).2.2.2]
            exact fun hm => hnr (List.mem_cons_of_mem _ hm)
          have hs' : (p.release x).server_ip ∈ (p.release x).allocated := by
            rw [(release_fields p x).2.2.1]
            exact release_server_mem p x hs
          have hcon := ih (p.release x) (release_WF p x hw) hs' hb' hnr' a ha
          rw [(release_fields p x).1, (release_fields p x).2.2.1,
            (release_fields p x).2.2.2] at hcon
          exact hcon

/-! Claim theorems -/

/-- C1, counterexample: when `transport.receive()` fails (here with
`"connection reset by peer"`), the downlink task exits with that error, yet
the single `on_stop` call carries `"Stopped"`, not the error text — because
`run_vpn` returns `Ok(())` once the tasks were spawned, whatever made the
first task exit. -/
theorem c1_counterexample :
    (runVpn none [] [RxEvt.recvErr "connection reset by peer"]).rxExit
        = some (RxExit.recvErr "connection reset by peer") ∧
    onStopCalls none [] [RxEvt.recvErr "connection reset by peer"] = ["Stopped"] ∧
    "Stopped" ≠ "connection reset by peer" := by
  refine ⟨rfl, rfl, ?_⟩
  decide

/-- C1, amended: for every session started via `start()`, the `on_stop`
callback is invoked exactly once when the session ends; the reason is the
setup error's text when `run_vpn` fails before spawning the pump tasks, and
`"Stopped"` in every other case — in particular, when `transport.receive()`
returns `Err` the downlink exits and the supervisor tears down
(broadcasting the stop signal), but `on_stop` still fires with
`"Stopped"`, not the error's text. -/
theorem c1_on_stop_amended (setupErr : Option String) (txE : List TxEvt)
    (rxE : List RxEvt) :
    (onStopCalls setupErr txE rxE).length = 1 ∧
    onStopCalls setupErr txE rxE = [setupErr.getD "Stopped"] ∧
    (runVpn none txE rxE).result = Except.ok () ∧
    (runVpn none txE rxE).broadcastTeardown = true := by
  cases setupErr <;> exact ⟨rfl, rfl, rfl, rfl⟩

/-- C2, counterexample: on the pool built over `10.0.0.1/255.255.255.252`
(network `10.0.0.0 = 167772160`, broadcast `10.0.0.3 = 167772163`), the
operation sequence allocate, `release(broadcast)`, allocate makes the
second `allocate()` return the broadcast address: `release` only protects
the server IP, and the scan range `network+1 ..= network+!mask` includes
the broadcast. -/
theorem c2_counterexample :
    (IpPool.new 167772161 4294967292).broadcast = 167772163 ∧
    (runOps [PoolOp.alloc, PoolOp.rel 167772163, PoolOp.alloc]
        (IpPool.new 167772161 4294967292)).2 = [167772162, 167772163] := by
  refine ⟨?_, ?_⟩ <;> decide

/-- C2, amended: over any pool built by `IpPool::new(ip, mask)` with a
nonzero `u32` mask, the network address and the server IP are never
returned by `allocate` under EVERY sequence of `allocate` / `release`
operations — including sequences that call `release` with the network or
the broadcast address — because the scan starts at `network + 1` and
`release` skips the server IP; the broadcast address is additionally never
returned as long as `release` is never called with the broadcast address
(as soon as it is, the broadcast can be re-allocated, as the
counterexample shows). -/
theorem c2_reserved_amended (ip mask : Nat) (h1 : 0 < mask) (h2 : mask < U32)
    (ops : List PoolOp) :
    (∀ a ∈ (runOps ops (IpPool.new ip mask)).2,
        a ≠ (IpPool.new ip mask).network ∧ a ≠ (IpPool.new ip mask).server_ip) ∧
    (PoolOp.rel ((IpPool.new ip mask).broadcast) ∉ ops →
        ∀ a ∈ (runOps ops (IpPool.new ip mask)).2,
          a ≠ (IpPool.new ip mask).broadcast) := by
  constructor
  · apply runOps_no_net_server ops (IpPool.new ip mask) ⟨Nat.and_le_right, h1, h2⟩
    exact mem_insertKey.mpr (Or.inr (mem_insertKey.mpr (Or.inr
      (mem_insertKey.mpr (Or.inl rfl)))))
  · intro hops a ha
    exact (runOps_no_reserved ops (IpPool.new ip mask) ⟨Nat.and_le_right, h1, h2⟩
      (mem_insertKey.mpr (Or.inr (mem_insertKey.mpr (Or.inr
        (mem_insertKey.mpr (Or.inl rfl))))))
      (mem_insertKey.mpr (Or.inl rfl)) hops a ha).2.2

/-- C2, witness for the amended theorem: on the `/30` pool, the
unconditional part is exercised on a sequence that DOES release the
broadcast (whose second allocation returns `10.0.0.3`, still neither
network nor server IP), and the broadcast part on a release-free
sequence. -/
theorem c2_reserved_amended_witness :
    (167772163 ≠ (IpPool.new 167772161 4294967292).network ∧
      167772163 ≠ (IpPool.new 167772161 4294967292).server_ip) ∧
    167772162 ≠ (IpPool.new 167772161 4294967292).broadcast :=
  ⟨(c2_reserved_amended 167772161 4294967292 (by decide) (by decide)
      [PoolOp.alloc, PoolOp.rel 167772163, PoolOp.alloc]).1 167772163 (by decide),
   (c2_reserved_amended 167772161 4294967292 (by decide) (by decide)
      [PoolOp.alloc]).2 (by decide) 167772162 (by decide)⟩

/-- C3, counterexample: a UDP datagram of length 1 whose byte is `0x45`,
arriving from a registered source endpoint, is NOT dropped — it is written
verbatim to the TUN device (`main.rs` lines 185–198 require only
`n > 0 && packet[0] == 0x45`). -/
theorem c3_counterexample :
    (handleUdp
        (handleUdp (ClientManager.new (IpPool.new 167772161 4294967040)) [0, 1] 5).1
        [69] 5).2.tunWrite = some [69] := by
  decide

/-- C3, amended: a UDP datagram of length 1 never yields a response
datagram and never changes the registry; it is dropped unless its single
byte is `0x45` and the source endpoint is registered, in which case the
byte is written to the TUN device. -/
theorem c3_length_one_amended (m : ClientManager) (b src : Nat) :
    (handleUdp m [b] src).1 = m ∧
    (handleUdp m [b] src).2.sent = none ∧
    (handleUdp m [b] src).2.tunWrite =
      (if b = 69 ∧ (m.get_ip src).isSome = true then some [b] else none) := by
  have hH : isHandshake [b] = false := isHandshake_singleton b
  have hD : isData [b] = (b == 69) := rfl
  by_cases hb : b = 69
  · subst hb
    cases hr : (m.get_ip src).isSome with
    | true => simp [handleUdp, hH, hD, hr]
    | false => simp [handleUdp, hH, hD, hr]
  · simp [handleUdp, hH, hD, hb]

/-- C4: for every inbound UDP datagram whose first two bytes are `00 01`
(so length ≥ 2), when registration succeeds with assigned IP `ip` the
server sends back to the source exactly one datagram, the 15 bytes
`00 02 A B C D 01` followed by eight zero bytes where `(A,B,C,D)` are the
octets of `ip` in network order (route_count 1, single route `0.0.0.0/0`),
and writes nothing to TUN; on allocation failure it sends nothing. -/
theorem c4_handshake_response (m : ClientManager) (src : Nat) (rest : List Nat) :
    (∀ ip m', m.register src = (some ip, m') →
        handleUdp m (0 :: 1 :: rest) src =
          (m', { sent := some ([0, 2] ++ octets ip ++ [1, 0, 0, 0, 0, 0, 0, 0, 0]),
                 tunWrite := none }) ∧
        ([0, 2] ++ octets ip ++ [1, 0, 0, 0, 0, 0, 0, 0, 0] : List Nat).length = 15) ∧
    (∀ m', m.register src = (none, m') →
        handleUdp m (0 :: 1 :: rest) src = (m', { sent := none, tunWrite := none })) := by
  constructor
  · intro ip m' h
    refine ⟨?_, rfl⟩
    unfold handleUdp
    rw [h]
    rfl
  · intro m' h
    unfold handleUdp
    rw [h]
    rfl

/-- C4, witness: a fresh `10.0.0.1/24` server assigns `10.0.0.2` and
answers `00 01` with the expected 15-byte response. -/
theorem c4_handshake_response_witness :
    handleUdp (ClientManager.new (IpPool.new 167772161 4294967040)) (0 :: 1 :: []) 5 =
      ((((ClientManager.new (IpPool.new 167772161 4294967040)).register 5).2),
        { sent := some ([0, 2] ++ octets 167772162 ++ [1, 0, 0, 0, 0, 0, 0, 0, 0]),
          tunWrite := none }) ∧
    ([0, 2] ++ octets 167772162 ++ [1, 0, 0, 0, 0, 0, 0, 0, 0] : List Nat).length = 15 :=
  (c4_handshake_response _ 5 []).1 167772162 _ (by decide)

/-- C5: on every well-formed pool state, `allocate()` scans the candidates
`network + 1, network + 2, …, network + !mask` in increasing order, returns
the first candidate not currently reserved and marks it reserved, and
returns `None` — leaving the pool unchanged — exactly when every candidate
is reserved; in particular the pool built on `10.0.0.1/255.255.255.252`
produces exactly one allocation, `10.0.0.2`, and every later `allocate`
returns `None`. -/
theorem c5_allocate_first_fit :
    (∀ p : IpPool, p.WF → ∀ (c : Nat) (q : IpPool), p.allocate = (some c, q) →
        c ∉ p.allocated ∧ q.allocated = insertKey p.allocated c ∧ c ∈ q.allocated ∧
        ∃ i, 1 ≤ i ∧ i ≤ p.invMask ∧ c = p.network + i ∧
          ∀ j, 1 ≤ j → j < i → p.network + j ∈ p.allocated) ∧
    (∀ p : IpPool, p.WF →
        ((p.allocate).1 = none ↔
          ∀ i, 1 ≤ i → i ≤ p.invMask → p.network + i ∈ p.allocated)) ∧
    (∀ p : IpPool, (p.allocate).1 = none → (p.allocate).2 = p) ∧
    ((IpPool.new 167772161 4294967292).allocate.1 = some 167772162 ∧
      ∀ ops : List PoolOp, (∀ o ∈ ops, o = PoolOp.alloc) →
        (runOps (PoolOp.alloc :: ops) (IpPool.new 167772161 4294967292)).2
          = [167772162]) := by
  refine ⟨?_, ?_, allocate_none_snd, ?_, ?_⟩
  · intro p hw c q hq
    obtain ⟨hcn, hq2, i, hi1, hi2, hci, hmin⟩ := allocate_some_char p hw c q hq
    subst hq2
    exact ⟨hcn, rfl, mem_insertKey.mpr (Or.inl rfl), i, hi1, hi2, hci, hmin⟩
  · intro p hw
    exact allocate_none_iff p hw
  · decide
  · intro ops hall
    have hstep : (runOps (PoolOp.alloc :: ops) (IpPool.new 167772161 4294967292)).2
        = 167772162 :: (runOps ops (IpPool.mk 167772160 4294967292 167772161
            [167772162, 167772163, 167772160, 167772161])).2 := by
      simp only [runOps,
        show (IpPool.new 167772161 4294967292).allocate
            = (some 167772162, IpPool.mk 167772160 4294967292 167772161
                [167772162, 167772163, 167772160, 167772161])
          from by decide]
    rw [hstep]
    rw [runOps_allocs_none _ (by decide) ops hall]

/-- C5, witness for the first-fit theorem: instantiated on the `/30` pool,
whose first allocation is `10.0.0.2 = network + 2`. -/
theorem c5_allocate_first_fit_witness :
    (167772162 ∉ (IpPool.new 167772161 4294967292).allocated ∧
      ((IpPool.new 167772161 4294967292).allocate.2).allocated
        = insertKey (IpPool.new 167772161 4294967292).allocated 167772162 ∧
      167772162 ∈ ((IpPool.new 167772161 4294967292).allocate.2).allocated ∧
      ∃ i, 1 ≤ i ∧ i ≤ (IpPool.new 167772161 4294967292).invMask ∧
        167772162 = (IpPool.new 167772161 4294967292).network + i ∧
        ∀ j, 1 ≤ j → j < i →
          (IpPool.new 167772161 4294967292).network + j
            ∈ (IpPool.new 167772161 4294967292).allocated) ∧
    (runOps (PoolOp.alloc :: []) (IpPool.new 167772161 4294967292)).2
        = [167772162] :=
  ⟨c5_allocate_first_fit.1 (IpPool.new 167772161 4294967292) (by decide) 167772162
      ((IpPool.new 167772161 4294967292).allocate.2) (by decide),
   c5_allocate_first_fit.2.2.2.2 [] (by decide)⟩

/-- C6: if `register(e1)` returns `ip1`, then a second `register(e1)` call
returns the same `ip1` and leaves the state untouched — same pool (so no
new address is allocated) and the same registry entries. -/
theorem c6_register_idempotent (m : ClientManager) (e ip1 : Nat) (m1 : ClientManager)
    (h : m.register e = (some ip1, m1)) :
    m1.register e = (some ip1, m1) ∧
    ((m1.register e).2).pool = m1.pool ∧
    ((m1.register e).2).by_addr.length = m1.by_addr.length := by
  have hl : lookupA m1.by_addr e = some ip1 := by
    unfold ClientManager.register at h
    cases hk : lookupA m.by_addr e with
    | some ip =>
        rw [hk] at h
        simp only [Prod.mk.injEq, Option.some.injEq] at h
        obtain ⟨h1, h2⟩ := h
        subst h1
        subst h2
        exact hk
    | none =>
        rw [hk] at h
        rcases hA : m.pool.allocate with ⟨oc, pool'⟩
        rw [hA] at h
        cases oc with
        | some ip =>
            simp only [Prod.mk.injEq, Option.some.injEq] at h
            obtain ⟨h1, h2⟩ := h
            subst h1
            subst h2
            simp [lookupA]
        | none =>
            simp only [Prod.mk.injEq] at h
            exact absurd h.1 (by simp)
  have h2 : m1.register e = (some ip1, m1) := by
    unfold ClientManager.register
    rw [hl]
  exact ⟨h2, by rw [h2], by rw [h2]⟩

/-- C6, witness: registering endpoint `7` twice against a fresh
`10.0.0.1/24` pool returns `10.0.0.2` both times without a state change. -/
theorem c6_register_idempotent_witness :
    (((ClientManager.new (IpPool.new 167772161 4294967040)).register 7).2).register 7
        = (some 167772162,
            ((ClientManager.new (IpPool.new 167772161 4294967040)).register 7).2) ∧
    (((((ClientManager.new (IpPool.new 167772161 4294967040)).register 7).2).register
        7).2).pool
        = ((((ClientManager.new (IpPool.new 167772161 4294967040)).register 7).2)).pool ∧
    (((((ClientManager.new (IpPool.new 167772161 4294967040)).register 7).2).register
        7).2).by_addr.length
        = ((((ClientManager.new (IpPool.new 167772161 4294967040)).register
            7).2)).by_addr.length :=
  c6_register_idempotent (ClientManager.new (IpPool.new 167772161 4294967040)) 7
    167772162 (((ClientManager.new (IpPool.new 167772161 4294967040)).register 7).2)
    (by decide)

/-- C7, counterexample: `stop()` is `notify_one`, not a broadcast — with two
tasks waiting on the stop handle, one `stop()` call wakes only the first;
the second task keeps waiting. -/
theorem c7_counterexample :
    (clientStop ({ permit := false, waiters := [0, 1] } : NotifyState Nat)).2 ≠ [0, 1] ∧
    (clientStop ({ permit := false, waiters := [0, 1] } : NotifyState Nat)).2 = [0] ∧
    (clientStop ({ permit := false, waiters := [0, 1] } : NotifyState Nat)).1.waiters
        = [1] := by
  refine ⟨?_, rfl, rfl⟩
  decide

/-- C7, amended: `stop()` performs `notify_one` on the stop handle: with no
waiter it stores a single permit (so repeated `stop()` calls are
idempotent), and with waiters present it wakes exactly the first one, the
rest keep waiting; the wake that reaches all waiters is the supervisor's
`notify_waiters` during teardown — and the teardown triggered by one
`stop()` call (one task woken, the supervisor woken directly or through
that task's completion, then `notify_waiters`) does make every parked task
exit. -/
theorem c7_stop_amended :
    (∀ s : NotifyState TaskId, s.waiters = [] →
        clientStop s = ({ permit := true, waiters := [] }, []) ∧
        clientStop (clientStop s).1 = clientStop s) ∧
    (∀ (s : NotifyState TaskId) (w : TaskId) (ws : List TaskId),
        s.waiters = w :: ws →
        (clientStop s).2 = [w] ∧ (clientStop s).1.waiters = ws) ∧
    (∀ s : NotifyState TaskId,
        (notifyWaiters s).2 = s.waiters ∧ (notifyWaiters s).1.waiters = []) ∧
    (∀ (w0 : List TaskId) (t : TaskId), t ∈ w0 → t ∈ teardownExited w0) ∧
    (∀ w0 : List TaskId, TaskId.sup ∈ teardownExited w0) := by
  refine ⟨?_, ?_, ?_, ?_, ?_⟩
  · rintro ⟨p, ws⟩ h
    have h2 : ws = [] := h
    subst h2
    exact ⟨rfl, rfl⟩
  · rintro ⟨p, ws0⟩ w ws h
    have h2 : ws0 = w :: ws := h
    subst h2
    exact ⟨rfl, rfl⟩
  · intro s
    exact ⟨rfl, rfl⟩
  · intro w0 t ht
    cases w0 with
    | nil => cases ht
    | cons w ws =>
        have he : teardownExited (w :: ws) = TaskId.sup :: w :: ws := rfl
        rw [he]
        rcases List.mem_cons.mp ht with h | h
        · subst h
          exact List.mem_cons_of_mem _ (List.mem_cons_self _ _)
        · exact List.mem_cons_of_mem _ (List.mem_cons_of_mem _ h)
  · intro w0
    cases w0 with
    | nil => exact List.mem_cons_self _ _
    | cons w ws => exact List.mem_cons_self _ _

/-- C7, witness for the amended theorem: the idempotent no-waiter `stop()`
and the teardown reaching a parked task, at concrete states. -/
theorem c7_stop_amended_witness :
    clientStop ({ permit := false, waiters := [] } : NotifyState TaskId)
        = ({ permit := true, waiters := [] }, []) ∧
    TaskId.tx ∈ teardownExited [TaskId.tx, TaskId.rx, TaskId.stats, TaskId.sup] :=
  ⟨(c7_stop_amended.1 { permit := false, waiters := [] } rfl).1,
   c7_stop_amended.2.2.2.1 _ TaskId.tx (by decide)⟩

/-- C8: in the client pump, a transport send error on the uplink is
non-terminal — the loop continues with the `tx` counter advanced — whereas
a transport receive error on the downlink is terminal: the loop exits with
that error. -/
theorem c8_send_nonterminal_recv_terminal :
    (∀ (n : Nat) (e : String) (rest : List TxEvt) (tx : Nat),
        txRun (TxEvt.read (ReadRes.ok (n + 1)) (SendRes.err e) :: rest) tx
          = txRun rest (tx + (n + 1))) ∧
    (∀ (e : String) (rest : List RxEvt) (rx : Nat),
        rxRun (RxEvt.recvErr e :: rest) rx = (RxExit.recvErr e, rx)) :=
  ⟨fun _ _ _ _ => rfl, fun _ _ _ => rfl⟩

/-- C9: a `WouldBlock` TUN read leaves the `tx` counter unchanged and the
uplink loop retries; `tx` advances, by exactly `N`, only on a read that
returns `N > 0` bytes — every other uplink event leaves the counter
unchanged. -/
theorem c9_wouldblock_frame :
    (∀ (s : SendRes) (rest : List TxEvt) (tx : Nat),
        txRun (TxEvt.read ReadRes.wouldBlock s :: rest) tx = txRun rest tx) ∧
    (∀ (n : Nat) (s : SendRes) (rest : List TxEvt) (tx : Nat),
        txRun (TxEvt.read (ReadRes.ok (n + 1)) s :: rest) tx
          = txRun rest (tx + (n + 1))) ∧
    (∀ (rest : List TxEvt) (tx : Nat), (txRun (TxEvt.stop :: rest) tx).2 = tx) ∧
    (∀ (e : String) (rest : List TxEvt) (tx : Nat),
        (txRun (TxEvt.readableErr e :: rest) tx).2 = tx) ∧
    (∀ (s : SendRes) (rest : List TxEvt) (tx : Nat),
        (txRun (TxEvt.read (ReadRes.ok 0) s :: rest) tx).2 = tx) ∧
    (∀ (e : String) (s : SendRes) (rest : List TxEvt) (tx : Nat),
        (txRun (TxEvt.read (ReadRes.err e) s :: rest) tx).2 = tx) ∧
    (∀ tx : Nat, (txRun [] tx).2 = tx) :=
  ⟨fun _ _ _ => rfl, fun _ _ _ _ => rfl, fun _ _ => rfl, fun _ _ _ => rfl,
   fun _ _ _ => rfl, fun _ _ _ _ => rfl, fun _ => rfl⟩

/-- C10: calling `start()` when no connection is stored — because
`handshake()` was never called, or because a previous `start()` already
consumed the stored connection via `take()` — returns
`Err(StartFailed(...))` immediately: the pump thread is not spawned (so no
callback method can be invoked) and the stored slot stays `None`. -/
theorem c10_start_requires_connection :
    clientStart (none : Option Nat) =
      { result := Except.error startErrMsg, stored := none, threadSpawned := false } ∧
    (∀ c : Nat,
        (clientStart (some c)).stored = none ∧
        clientStart (clientStart (some c)).stored =
          { result := Except.error startErrMsg, stored := none,
            threadSpawned := false }) :=
  ⟨rfl, fun _ => ⟨rfl, rfl⟩⟩

end ToyVpn
